import Mathlib

/-!
Verification of the repository layer of the JGM01/server content-management
backend, shallowly embedded in Lean 4.

The embedding follows the Rust sources:
- `src/models/post.rs`   — `PostCategory`, `Post`, `CreatePost`, `UpdatePost`,
  `PatchPost`, `is_valid_slug`, the `validate` methods;
- `src/models/tag.rs`    — `Tag`, `TagWithPostCount`, `Tag::is_valid_name`;
- `src/models/errors.rs` — `PostError`;
- `src/db/error.rs`      — `DatabaseError` (modelled structurally: the source
  formats resource and identifier into a single message string; here the two
  parts are kept as separate fields, which loses no information);
- `src/db/post_repository.rs` and `src/db/tag_repository.rs` — the repository
  operations, modelled as pure functions over an explicit store standing for
  the SQLite database. Timestamps (`OffsetDateTime`, `CURRENT_TIMESTAMP`) are
  modelled as integers supplied by the caller (`now`).
-/

/-- Model of `PostCategory` from `src/models/post.rs` lines 14-18. -/
inductive PostCategory where
  | Blog
  | Art
  | Reading
deriving DecidableEq

/-- Model of `PostCategory::to_string` from `src/models/post.rs` lines 35-43
(the text codec used when storing the category column). -/
def PostCategory.toStr : PostCategory → String
  | .Blog => "blog"
  | .Art => "art"
  | .Reading => "reading"

/-- The `posts` row type, `Post` from `src/models/post.rs` lines 61-74.
`created_at`/`updated_at` are integer-modelled timestamps. -/
structure Post where
  id : Int
  category : PostCategory
  title : String
  slug : String
  content : String
  description : String
  image_url : Option String
  external_url : Option String
  published : Bool
  created_at : Int
  updated_at : Int
deriving DecidableEq

/-- Model of `CreatePost` from `src/models/post.rs` lines 76-86. -/
structure CreatePost where
  category : PostCategory
  title : String
  slug : String
  content : String
  description : String
  image_url : Option String
  external_url : Option String
  published : Bool
deriving DecidableEq

/-- Model of `UpdatePost` from `src/models/post.rs` lines 103-114. -/
structure UpdatePost where
  id : Int
  category : PostCategory
  title : String
  slug : String
  content : String
  description : String
  image_url : Option String
  external_url : Option String
  published : Bool
deriving DecidableEq

/-- Model of `PatchPost` from `src/models/post.rs` lines 134-145: every field but
the id is optionally present. -/
structure PatchPost where
  id : Int
  category : Option PostCategory := none
  title : Option String := none
  slug : Option String := none
  content : Option String := none
  description : Option String := none
  image_url : Option String := none
  external_url : Option String := none
  published : Option Bool := none
deriving DecidableEq

/-- Model of `Tag` from `src/models/tag.rs` lines 7-11. -/
structure Tag where
  id : Int
  name : String
  created_at : Int
deriving DecidableEq

/-- Model of `TagWithPostCount` from `src/models/tag.rs` lines 16-21. -/
structure TagWithPostCount where
  id : Int
  name : String
  created_at : Int
  post_count : Int
deriving DecidableEq

/-- Model of `PostError` from `src/models/errors.rs` (the `Database` variant carries a
storage error and is irrelevant to validation; it is omitted because the
`validate` methods never produce it). -/
inductive PostError where
  | InvalidId
  | EmptyTitle
  | EmptyContent
  | InvalidSlug
deriving DecidableEq

/-- The `thiserror` display strings of `PostError`
(`src/models/errors.rs` lines 8-18), used when the repository wraps a
validation failure into `DatabaseError::Validation(e.to_string())`. -/
def PostError.message : PostError → String
  | .InvalidId => "Post ID must be positive"
  | .EmptyTitle => "Post title cannot be empty"
  | .EmptyContent => "Post content cannot be empty"
  | .InvalidSlug => "Invalid slug format"

/-- Model of `DatabaseError` from `src/db/error.rs`. The source's `not_found` and
`duplicate` helpers format `resource` and `identifier` into one message
string; the two parts are modelled as separate fields. The `Sqlx` and
`Migration` variants carry opaque storage errors and never arise in the
modelled operations. -/
inductive DatabaseError where
  | Configuration (msg : String)
  | Validation (msg : String)
  | NotFound (resource identifier : String)
  | DuplicateEntry (resource identifier : String)
  | TransactionErr (msg : String)
deriving DecidableEq

/-- Rust's `str::trim`: the string with leading and trailing whitespace
removed, rendered on the character list (core's `String.trim` is
well-founded-recursive and does not evaluate definitionally; this version
does, and agrees with Rust on the whitespace characters used here). -/
def rustTrim (s : String) : String :=
  ⟨((s.data.dropWhile Char.isWhitespace).reverse.dropWhile Char.isWhitespace).reverse⟩

/-- Model of `is_valid_slug` from `src/models/post.rs` lines 147-154:
non-empty, every character ASCII-alphanumeric or a hyphen, and the string
neither starts nor ends with a hyphen (`starts_with('-')`/`ends_with('-')`
are rendered on the character list). -/
def isValidSlug (s : String) : Bool :=
  !s.isEmpty
    && s.data.all (fun c => c.isAlphanum || c == '-')
    && !(s.data.head? == some '-')
    && !(s.data.getLast? == some '-')

/-- Model of `Tag::is_valid_name` from `src/models/tag.rs` lines 26-33: trims, then
requires non-empty, byte length (Rust `str::len`) at most 50, and every
character alphanumeric, whitespace, `-`, `_` or `+`. -/
def Tag.isValidName (name : String) : Bool :=
  let trimmed := rustTrim name
  !trimmed.isEmpty
    && trimmed.utf8ByteSize ≤ 50
    && trimmed.data.all (fun c =>
        c.isAlphanum || c.isWhitespace || c == '-' || c == '_' || c == '+')

/-- The spec's characterization of a well-formed slug, written independently
of `isValidSlug`: non-empty, only ASCII alphanumerics and hyphens, and not
starting or ending with a hyphen. -/
def SlugSpec (s : String) : Prop :=
  s ≠ ""
    ∧ (∀ c ∈ s.data,
        ('a' ≤ c ∧ c ≤ 'z') ∨ ('A' ≤ c ∧ c ≤ 'Z') ∨ ('0' ≤ c ∧ c ≤ '9') ∨ c = '-')
    ∧ s.data.head? ≠ some '-'
    ∧ s.data.getLast? ≠ some '-'

/-! ## Generic insertion sort (model of SQL `ORDER BY`) -/

def insertSorted {α : Type} (le : α → α → Bool) (a : α) : List α → List α
  | [] => [a]
  | b :: bs => if le a b then a :: b :: bs else b :: insertSorted le a bs

def sortList {α : Type} (le : α → α → Bool) : List α → List α
  | [] => []
  | a :: as => insertSorted le a (sortList le as)

/-! ## Post repository (`src/db/post_repository.rs`), modelled over an
explicit list of rows standing for the `posts` table. -/

/-- The `posts` table. The `id` column is unique in the real schema;
operations only rely on `find?` returning the row with the given id. -/
abbrev PostStore := List Post

/-- The row lookup behind `PostRepository::find_by_id`
(`src/db/post_repository.rs` lines 75-92): `SELECT ... WHERE id = ?`. -/
def findPostById (st : PostStore) (id : Int) : Option Post :=
  st.find? (fun p => p.id == id)

/-- Model of `UpdatePost::validate` from `src/models/post.rs` lines 116-132:
id-positivity, then non-empty trimmed title, then non-empty trimmed
content, then slug well-formedness; the first violated rule is returned. -/
def UpdatePost.validate (u : UpdatePost) : Except PostError Unit :=
  if u.id ≤ 0 then .error .InvalidId
  else if (rustTrim u.title).isEmpty then .error .EmptyTitle
  else if (rustTrim u.content).isEmpty then .error .EmptyContent
  else if !isValidSlug u.slug then .error .InvalidSlug
  else .ok ()

/-- Model of `CreatePost::validate` from `src/models/post.rs` lines 88-101
(no id rule; otherwise the same precedence). -/
def CreatePost.validate (c : CreatePost) : Except PostError Unit :=
  if (rustTrim c.title).isEmpty then .error .EmptyTitle
  else if (rustTrim c.content).isEmpty then .error .EmptyContent
  else if !isValidSlug c.slug then .error .InvalidSlug
  else .ok ()

/-- Model of `PostRepository::update` (`src/db/post_repository.rs` lines 176-228):
validate, then `UPDATE ... WHERE id = ?` setting every mutable column and
`updated_at = CURRENT_TIMESTAMP`. A missing row gives `NotFound`; a slug
colliding with a different row violates the unique index and gives
`DuplicateEntry("Post", slug)`. `now` models `CURRENT_TIMESTAMP`. -/
def updateOp (st : PostStore) (u : UpdatePost) (now : Int) :
    Except DatabaseError (Post × PostStore) :=
  match u.validate with
  | .error e => .error (.Validation e.message)
  | .ok () =>
    match findPostById st u.id with
    | none => .error (.NotFound "Post" (toString u.id))
    | some current =>
      if st.any (fun q => q.id != u.id && q.slug == u.slug) then
        .error (.DuplicateEntry "Post" u.slug)
      else
        let updated : Post :=
          { id := current.id, category := u.category, title := u.title,
            slug := u.slug, content := u.content, description := u.description,
            image_url := u.image_url, external_url := u.external_url,
            published := u.published, created_at := current.created_at,
            updated_at := now }
        .ok (updated, st.map (fun q => if q.id == u.id then updated else q))

/-- The field merge of `PostRepository::patch`
(`src/db/post_repository.rs` lines 239-247): `unwrap_or` on every plain
field, `Option::or` ("first present") on `image_url`/`external_url`; the
`UPDATE` leaves `id` and `created_at` untouched and sets
`updated_at = CURRENT_TIMESTAMP` (modelled by `now`). -/
def mergePatch (current : Post) (patch : PatchPost) (now : Int) : Post :=
  { id := current.id,
    category := patch.category.getD current.category,
    title := patch.title.getD current.title,
    slug := patch.slug.getD current.slug,
    content := patch.content.getD current.content,
    description := patch.description.getD current.description,
    image_url := patch.image_url.or current.image_url,
    external_url := patch.external_url.or current.external_url,
    published := patch.published.getD current.published,
    created_at := current.created_at,
    updated_at := now }

/-- Model of `PostRepository::patch` (`src/db/post_repository.rs` lines 232-289) as a
sequential (single-caller) operation: fetch the current row by id (via
`find_by_id`, giving `NotFound` when absent), merge, write the merged row.
A merged slug colliding with a different row gives
`DuplicateEntry("Post", patch.slug.unwrap_or_default())`. Note there is no
validation step. -/
def patchOp (st : PostStore) (pp : PatchPost) (now : Int) :
    Except DatabaseError (Post × PostStore) :=
  match findPostById st pp.id with
  | none => .error (.NotFound "Post" (toString pp.id))
  | some current =>
    let merged := mergePatch current pp now
    if st.any (fun q => q.id != pp.id && q.slug == merged.slug) then
      .error (.DuplicateEntry "Post" (pp.slug.getD ""))
    else
      .ok (merged, st.map (fun q => if q.id == pp.id then merged else q))

/-- The `WHERE` clause of `PostRepository::list`
(`src/db/post_repository.rs` lines 156-158):
`(? IS NULL OR category = ?) AND (? = FALSE OR published = TRUE)`,
with the category compared through its text encoding. -/
def postMatches (category : Option PostCategory) (publishedOnly : Bool) (p : Post) : Bool :=
  (match category with
    | none => true
    | some c => p.category.toStr == c.toStr)
    && (!publishedOnly || p.published)

/-- Model of `ORDER BY created_at DESC` on the `posts` rows. -/
def sortByCreatedDesc (rows : List Post) : List Post :=
  sortList (fun p q => decide (q.created_at ≤ p.created_at)) rows

/-- Model of `PostRepository::list` (`src/db/post_repository.rs` lines 130-172):
pagination validation (`limit <= 0 || limit > 100`, `offset < 0`), then
filter, `ORDER BY created_at DESC`, `LIMIT ?` and `OFFSET ?`. -/
def listPosts (st : PostStore) (category : Option PostCategory)
    (publishedOnly : Bool) (limit offset : Int) :
    Except DatabaseError (List Post) :=
  if limit ≤ 0 || 100 < limit then
    .error (.Validation "Limit must be between 1 and 100")
  else if offset < 0 then
    .error (.Validation "Offset cannot be negative")
  else
    .ok (((sortByCreatedDesc (st.filter (postMatches category publishedOnly))).drop
      offset.toNat).take limit.toNat)

/-- The resulting `posts` table after a post-repository call: an error rolls
back, leaving the store as it was. -/
def storeAfter (st : PostStore) (r : Except DatabaseError (Post × PostStore)) : PostStore :=
  match r with
  | .ok (_, st') => st'
  | .error _ => st

/-! ## Tag repository (`src/db/tag_repository.rs`), modelled over an explicit
store holding the `tags` table, the ids of the `posts` table (all the
foreign-key checks need), and the `post_tags` association rows. -/

/-- The tables the tag repository touches. `nextTagId` models the
store-generated `tags.id` sequence. -/
structure TagStore where
  tags : List Tag
  postIds : List Int
  assocs : List (Int × Int)
  nextTagId : Int
deriving DecidableEq

/-- The schema's referential integrity: every `post_tags` row points at an
existing post and an existing tag (`ON DELETE CASCADE` keeps this true). -/
def TagStoreConsistent (st : TagStore) : Prop :=
  ∀ a ∈ st.assocs, a.1 ∈ st.postIds ∧ ∃ t ∈ st.tags, t.id = a.2

/-- Model of `TagRepository::create` (`src/db/tag_repository.rs` lines 22-53):
reject a name empty after trimming with `Validation`, then insert the
trimmed name; the `tags.name` unique index makes a clash a
`DuplicateEntry("Tag", name)` (the untrimmed input is echoed in the error). -/
def createTag (st : TagStore) (name : String) (now : Int) :
    Except DatabaseError (Tag × TagStore) :=
  if (rustTrim name).isEmpty then .error (.Validation "Tag name cannot be empty")
  else
    let trimmed := rustTrim name
    if st.tags.any (fun t => t.name == trimmed) then
      .error (.DuplicateEntry "Tag" name)
    else
      let tag : Tag := { id := st.nextTagId, name := trimmed, created_at := now }
      .ok (tag, { st with tags := st.tags ++ [tag], nextTagId := st.nextTagId + 1 })

/-- Model of `TagRepository::update` (`src/db/tag_repository.rs` lines 121-154):
reject a name empty after trimming with `Validation`; `UPDATE ... WHERE id`
returning no row gives `NotFound`; the unique index makes a clash with a
different row a `DuplicateEntry("Tag", new_name)`. -/
def updateTag (st : TagStore) (id : Int) (newName : String) :
    Except DatabaseError (Tag × TagStore) :=
  if (rustTrim newName).isEmpty then .error (.Validation "Tag name cannot be empty")
  else
    let trimmed := rustTrim newName
    match st.tags.find? (fun t => t.id == id) with
    | none => .error (.NotFound "Tag" (toString id))
    | some t =>
      if st.tags.any (fun u => u.id != id && u.name == trimmed) then
        .error (.DuplicateEntry "Tag" newName)
      else
        let renamed : Tag := { t with name := trimmed }
        .ok (renamed,
          { st with tags := st.tags.map (fun u => if u.id == id then renamed else u) })

/-- Model of `TagRepository::add_tag_to_post` (`src/db/tag_repository.rs` lines
182-207): `INSERT INTO post_tags`; a foreign-key violation (either id
absent) becomes `NotFound("Post or Tag", ids)`, a composite-uniqueness
violation (already associated) becomes `DuplicateEntry`. -/
def addTagToPost (st : TagStore) (postId tagId : Int) :
    Except DatabaseError TagStore :=
  if !(st.postIds.contains postId && st.tags.any (fun t => t.id == tagId)) then
    .error (.NotFound "Post or Tag" (toString postId ++ ", " ++ toString tagId))
  else if st.assocs.contains (postId, tagId) then
    .error (.DuplicateEntry "Tag association" (toString postId ++ ", " ++ toString tagId))
  else
    .ok { st with assocs := st.assocs ++ [(postId, tagId)] }

/-- Lexicographic comparison of character lists: SQLite's byte-wise TEXT
ordering, restricted to the names occurring here (core's `String.ltb` is
not definitionally evaluable, so the order is rendered on the lists). -/
def charListLe : List Char → List Char → Bool
  | [], _ => true
  | _ :: _, [] => false
  | c :: cs, d :: ds => if c < d then true else if d < c then false else charListLe cs ds

/-- The string order used by `ORDER BY t.name`. -/
def nameLe (s t : String) : Bool := charListLe s.data t.data

/-- Model of `ORDER BY t.name` on `tags` rows (ascending). -/
def sortTagsByName (ts : List Tag) : List Tag :=
  sortList (fun t u => nameLe t.name u.name) ts

/-- Model of `TagRepository::list_tags_for_post` (`src/db/tag_repository.rs` lines
237-255): `tags JOIN post_tags ON t.id = pt.tag_id WHERE pt.post_id = ?
ORDER BY t.name`. The join is modelled from the association rows; no
post-existence check is made and the read itself cannot fail. -/
def listTagsForPost (st : TagStore) (postId : Int) :
    Except DatabaseError (List Tag) :=
  .ok (sortTagsByName ((st.assocs.filter (fun a => a.1 == postId)).filterMap
    (fun a => st.tags.find? (fun t => t.id == a.2))))

/-- Model of `COUNT(pt.post_id)` for one tag under the `LEFT JOIN post_tags` with
`GROUP BY t.id`: the number of association rows naming the tag (a tag with
no rows keeps the single all-NULL joined row, counted as 0). -/
def postCountFor (st : TagStore) (tagId : Int) : Int :=
  ((st.assocs.filter (fun a => a.2 == tagId)).length : Int)

/-- Model of `TagRepository::list` (`src/db/tag_repository.rs` lines 93-118): with
`include_post_count` the aggregate join query, otherwise `0 as post_count`;
both `ORDER BY t.name`. `GROUP BY t.id` yields one row per tag (ids are
unique in the schema). -/
def listTags (st : TagStore) (includePostCount : Bool) :
    Except DatabaseError (List TagWithPostCount) :=
  if includePostCount then
    .ok ((sortTagsByName st.tags).map (fun t =>
      { id := t.id, name := t.name, created_at := t.created_at,
        post_count := postCountFor st t.id }))
  else
    .ok ((sortTagsByName st.tags).map (fun t =>
      { id := t.id, name := t.name, created_at := t.created_at, post_count := 0 }))

/-- The `tags`/`post_tags` state after a tag-repository call returning a new
store: an error rolls back. -/
def tagStoreAfter (st : TagStore) (r : Except DatabaseError TagStore) : TagStore :=
  match r with
  | .ok st' => st'
  | .error _ => st

/-- The store state after a tag mutation that also returns the written row. -/
def tagStoreAfterPair (st : TagStore) (r : Except DatabaseError (Tag × TagStore)) : TagStore :=
  match r with
  | .ok (_, st') => st'
  | .error _ => st

/-! ## The concurrency structure of `PostRepository::patch`
(`src/db/post_repository.rs` lines 232-289).

The method begins a transaction on line 233 and commits it on line 287, but
the fetch of the current row on line 236 calls `self.find_by_id`, which
queries the shared pool (`.fetch_optional(&self.pool)`, line 88) — not the
open transaction (statements inside the transaction run on `&mut *tx`).
The read therefore observes the committed store, and two concurrent patch
calls can both read before either one writes. The definitions below model
one such schedule: both reads against the committed store, then the two
write-commit steps in order. -/

/-- The read step of a patch call: `find_by_id` against the pool (the
committed store), `src/db/post_repository.rs` line 236. -/
def patchReadPool (pool : PostStore) (pp : PatchPost) : Option Post :=
  findPostById pool pp.id

/-- The write-commit step of a patch call: the `UPDATE ... WHERE id = ?`
of lines 248-287 applied to whatever the store holds at commit time, using
the row the call read earlier. -/
def patchWriteCommit (pool : PostStore) (pp : PatchPost) (current : Post)
    (now : Int) : PostStore :=
  pool.map (fun q => if q.id == pp.id then mergePatch current pp now else q)

/-- The read-read-write-write schedule of two concurrent patch calls on the
same committed store: both reads see `pool`, then the first call commits,
then the second. `none` when either read finds no row. -/
def interleavedPatches (pool : PostStore) (p1 p2 : PatchPost)
    (now1 now2 : Int) : Option PostStore :=
  match patchReadPool pool p1, patchReadPool pool p2 with
  | some c1, some c2 =>
      some (patchWriteCommit (patchWriteCommit pool p1 c1 now1) p2 c2 now2)
  | _, _ => none

/-! ## Concrete instances used by witnesses and counterexamples -/

/-- A stored post used as the pre-state of patch/update demonstrations. -/
def postA : Post :=
  { id := 1, category := .Blog, title := "Test Post", slug := "test-post",
    content := "Test content", description := "Test description",
    image_url := none, external_url := some "ext", published := true,
    created_at := 10, updated_at := 10 }

/-- State of `postA` after `PatchPost{id: 1, title: Some "X"}` at time 11. -/
def postA_patched : Post :=
  { postA with title := "X", updated_at := 11 }

/-- State of `postA` after a patch carrying an empty title at time 12. -/
def postA_emptyTitle : Post :=
  { postA with title := "", updated_at := 12 }

/-- A stored post used by the lost-update demonstration. -/
def postB : Post :=
  { id := 1, category := .Blog, title := "old-title", slug := "b",
    content := "old-content", description := "", image_url := none,
    external_url := none, published := true, created_at := 1, updated_at := 1 }

/-- First concurrent patch: set the title. -/
def patchTitleB : PatchPost := { id := 1, title := some "new-title" }

/-- Second concurrent patch: set the content. -/
def patchContentB : PatchPost := { id := 1, content := some "new-content" }

/-- The row left by the read-read-write-write schedule: the second write,
merged against the stale read, reverts the first write's title. -/
def lostB : Post := { postB with content := "new-content", updated_at := 12 }

/-- The row after the first patch commits alone. -/
def serial1B : Post := { postB with title := "new-title", updated_at := 11 }

/-- The row after the second patch runs after the first (serial order). -/
def serial2B : Post := { serial1B with content := "new-content", updated_at := 12 }

/-- An update input violating the non-empty-title rule (id is positive). -/
def updEmptyTitle : UpdatePost :=
  { id := 1, category := .Blog, title := "", slug := "ok-slug", content := "c",
    description := "", image_url := none, external_url := none, published := false }

/-- The empty tag store. -/
def emptyTagStore : TagStore := { tags := [], postIds := [], assocs := [], nextTagId := 1 }

/-- A tag store with two tags, one post and one association, used by the
tag-listing witnesses. -/
def tagStoreT : TagStore :=
  { tags := [{ id := 1, name := "zig", created_at := 2 }, { id := 2, name := "ada", created_at := 3 }],
    postIds := [7],
    assocs := [(7, 1)],
    nextTagId := 3 }

/-- First concurrent patch: only the title is present. -/
def patchTitleA : PatchPost := { id := 1, title := some "X" }

/-- A patch carrying a present-but-empty title (no validation stops it). -/
def patchEmptyTitleA : PatchPost := { id := 1, title := some "" }

/-! ## Helper lemmas -/

lemma uint32_le_iff (a b : UInt32) : a ≤ b ↔ a.toNat ≤ b.toNat := Iff.rfl

lemma char_le_iff (a b : Char) : a ≤ b ↔ a.toNat ≤ b.toNat := Iff.rfl

lemma isAlphanum_or_hyphen_iff (c : Char) :
    (c.isAlphanum || c == '-') = true ↔
      ('a' ≤ c ∧ c ≤ 'z') ∨ ('A' ≤ c ∧ c ≤ 'Z') ∨ ('0' ≤ c ∧ c ≤ '9') ∨ c = '-' := by
  rcases eq_or_ne c '-' with h | h
  · subst h; simp
  · simp only [Char.isAlphanum, Char.isAlpha, Char.isDigit, Char.isUpper, Char.isLower,
      Bool.or_eq_true, Bool.and_eq_true, decide_eq_true_eq, ge_iff_le, beq_iff_eq,
      uint32_le_iff, char_le_iff, h, or_false,
      show ('a').toNat = 97 from rfl, show ('z').toNat = 122 from rfl,
      show ('A').toNat = 65 from rfl, show ('Z').toNat = 90 from rfl,
      show ('0').toNat = 48 from rfl, show ('9').toNat = 57 from rfl]
    show ((65 ≤ c.toNat ∧ c.toNat ≤ 90) ∨ (97 ≤ c.toNat ∧ c.toNat ≤ 122)) ∨
        (48 ≤ c.toNat ∧ c.toNat ≤ 57) ↔ _
    omega

lemma isValidSlug_iff (s : String) : isValidSlug s = true ↔ SlugSpec s := by
  have hempty : s.isEmpty = false ↔ s ≠ "" := by
    rw [← Bool.not_eq_true, not_iff_not, String.isEmpty_iff]
  constructor
  · intro h
    simp only [isValidSlug, Bool.and_eq_true, Bool.not_eq_true',
      beq_eq_false_iff_ne, List.all_eq_true] at h
    obtain ⟨⟨⟨h1, h2⟩, h3⟩, h4⟩ := h
    refine ⟨hempty.mp h1, fun c hc => ?_, h3, h4⟩
    exact (isAlphanum_or_hyphen_iff c).mp (h2 c hc)
  · rintro ⟨h1, h2, h3, h4⟩
    simp only [isValidSlug, Bool.and_eq_true, Bool.not_eq_true',
      beq_eq_false_iff_ne, List.all_eq_true]
    exact ⟨⟨⟨hempty.mpr h1, fun c hc => (isAlphanum_or_hyphen_iff c).mpr (h2 c hc)⟩, h3⟩, h4⟩

lemma insertSorted_perm {α : Type} (le : α → α → Bool) (a : α) (l : List α) :
    List.Perm (insertSorted le a l) (a :: l) := by
  induction l with
  | nil => exact List.Perm.refl _
  | cons b bs ih =>
    simp only [insertSorted]
    split
    · exact List.Perm.refl _
    · exact (List.Perm.cons b ih).trans (List.Perm.swap a b bs)

lemma sortList_perm {α : Type} (le : α → α → Bool) (l : List α) :
    List.Perm (sortList le l) l := by
  induction l with
  | nil => exact List.Perm.refl _
  | cons a as ih =>
    exact (insertSorted_perm le a (sortList le as)).trans (List.Perm.cons a ih)

lemma pairwise_insertSorted {α : Type} (le : α → α → Bool)
    (htot : ∀ x y, le x y = true ∨ le y x = true)
    (htrans : ∀ x y z, le x y = true → le y z = true → le x z = true)
    (a : α) (l : List α) (h : l.Pairwise (fun x y => le x y = true)) :
    (insertSorted le a l).Pairwise (fun x y => le x y = true) := by
  induction l with
  | nil => simp [insertSorted]
  | cons b bs ih =>
    rcases List.pairwise_cons.mp h with ⟨hb, hbs⟩
    simp only [insertSorted]
    split
    · rename_i hle
      refine List.pairwise_cons.mpr ⟨?_, h⟩
      intro y hy
      rcases List.mem_cons.mp hy with rfl | hy
      · exact hle
      · exact htrans a b y hle (hb y hy)
    · rename_i hle
      have hba : le b a = true := by
        rcases htot a b with hab | hba
        · exact absurd hab hle
        · exact hba
      refine List.pairwise_cons.mpr ⟨?_, ih hbs⟩
      intro y hy
      have : y ∈ a :: bs := (insertSorted_perm le a bs).mem_iff.mp hy
      rcases List.mem_cons.mp this with rfl | hy'
      · exact hba
      · exact hb y hy'

lemma pairwise_sortList {α : Type} (le : α → α → Bool)
    (htot : ∀ x y, le x y = true ∨ le y x = true)
    (htrans : ∀ x y z, le x y = true → le y z = true → le x z = true)
    (l : List α) :
    (sortList le l).Pairwise (fun x y => le x y = true) := by
  induction l with
  | nil => simp [sortList]
  | cons a as ih => exact pairwise_insertSorted le htot htrans a (sortList le as) ih

/-! ## Claim theorems -/

/-- C8: the slug validity predicate accepts exactly the strings that are
non-empty, consist only of ASCII alphanumerics and hyphens, and neither
start nor end with a hyphen. -/
theorem slug_predicate_exact (s : String) : isValidSlug s = true ↔ SlugSpec s :=
  isValidSlug_iff s

/-- Witness for C8 at concrete strings: "a-b" is accepted and satisfies the
characterization; "-ab" is rejected. -/
theorem slug_predicate_exact_witness :
    isValidSlug "a-b" = true ∧ SlugSpec "a-b" ∧ isValidSlug "-ab" = false :=
  ⟨by decide, (slug_predicate_exact "a-b").mp (by decide), by decide⟩

/-- C1: when `patch` succeeds on an existing post, every field whose patch
value is absent equals the pre-patch field, every present field value
overwrites, `image_url`/`external_url` follow first-present semantics (an
absent value never clears), and `id`/`created_at` are unchanged. -/
theorem patch_merge_semantics (st : PostStore) (pp : PatchPost) (now : Int)
    (current merged : Post) (st' : PostStore)
    (hfind : findPostById st pp.id = some current)
    (hok : patchOp st pp now = .ok (merged, st')) :
    (∀ v, pp.category = some v → merged.category = v) ∧
    (pp.category = none → merged.category = current.category) ∧
    (∀ v, pp.title = some v → merged.title = v) ∧
    (pp.title = none → merged.title = current.title) ∧
    (∀ v, pp.slug = some v → merged.slug = v) ∧
    (pp.slug = none → merged.slug = current.slug) ∧
    (∀ v, pp.content = some v → merged.content = v) ∧
    (pp.content = none → merged.content = current.content) ∧
    (∀ v, pp.description = some v → merged.description = v) ∧
    (pp.description = none → merged.description = current.description) ∧
    (∀ v, pp.published = some v → merged.published = v) ∧
    (pp.published = none → merged.published = current.published) ∧
    (∀ v, pp.image_url = some v → merged.image_url = some v) ∧
    (pp.image_url = none → merged.image_url = current.image_url) ∧
    (∀ v, pp.external_url = some v → merged.external_url = some v) ∧
    (pp.external_url = none → merged.external_url = current.external_url) ∧
    merged.id = current.id ∧ merged.created_at = current.created_at := by
  unfold patchOp at hok
  rw [hfind] at hok
  dsimp only at hok
  split at hok
  · exact Except.noConfusion hok
  · injection hok with h
    injection h with h1 h2
    subst h1
    refine ⟨fun v hv => by simp [mergePatch, hv],
            fun hv => by simp [mergePatch, hv],
            fun v hv => by simp [mergePatch, hv],
            fun hv => by simp [mergePatch, hv],
            fun v hv => by simp [mergePatch, hv],
            fun hv => by simp [mergePatch, hv],
            fun v hv => by simp [mergePatch, hv],
            fun hv => by simp [mergePatch, hv],
            fun v hv => by simp [mergePatch, hv],
            fun hv => by simp [mergePatch, hv],
            fun v hv => by simp [mergePatch, hv],
            fun hv => by simp [mergePatch, hv],
            fun v hv => by simp [mergePatch, hv, Option.or],
            fun hv => by simp [mergePatch, hv, Option.or],
            fun v hv => by simp [mergePatch, hv, Option.or],
            fun hv => by simp [mergePatch, hv, Option.or],
            by simp [mergePatch],
            by simp [mergePatch]⟩

/-- Witness for C1: patching only the title of `postA` changes the title,
keeps the other fields, and keeps `id`/`created_at`. -/
theorem patch_merge_semantics_witness :
    findPostById [postA] patchTitleA.id = some postA ∧
    patchOp [postA] patchTitleA 11 = .ok (postA_patched, [postA_patched]) ∧
    postA_patched.title = "X" ∧ postA_patched.slug = postA.slug ∧
    postA_patched.id = postA.id ∧ postA_patched.created_at = postA.created_at := by
  obtain ⟨-, -, ht, -, -, hs, -, -, -, -, -, -, -, -, -, -, hid, hca⟩ :=
    patch_merge_semantics [postA] patchTitleA 11 postA postA_patched [postA_patched] rfl rfl
  exact ⟨rfl, rfl, ht "X" rfl, hs rfl, hid, hca⟩

/-- C2: the read of `PostRepository::patch` runs on the pool, outside the
transaction it opened, so in the read-read-write-write schedule of two
concurrent patches of row 1 the second commit reverts the first one's
title — a lost update. Running the same two patches serially keeps both
changes, showing the interleaving (not the inputs) loses the update. -/
theorem patch_read_outside_tx_loses_update :
    interleavedPatches [postB] patchTitleB patchContentB 11 12 = some [lostB] ∧
    lostB.title = "old-title" ∧ lostB.content = "new-content" ∧
    patchOp [postB] patchTitleB 11 = .ok (serial1B, [serial1B]) ∧
    patchOp [serial1B] patchContentB 12 = .ok (serial2B, [serial2B]) ∧
    serial2B.title = "new-title" ∧ serial2B.content = "new-content" :=
  ⟨rfl, rfl, rfl, rfl, rfl, rfl, rfl⟩

/-- C3 counterexample: `patch` performs no validation. A patch whose title
is present but empty (a violation of the non-empty-title rule) is written
to the store instead of returning a `Validation` error, and the store
changes. -/
theorem patch_skips_validation :
    patchOp [postA] patchEmptyTitleA 12 = .ok (postA_emptyTitle, [postA_emptyTitle]) ∧
    rustTrim postA_emptyTitle.title = "" ∧
    [postA_emptyTitle] ≠ [postA] ∧
    ∀ m, patchOp [postA] patchEmptyTitleA 12 ≠ .error (.Validation m) := by
  refine ⟨rfl, by decide, by decide, ?_⟩
  intro m h
  rw [show patchOp [postA] patchEmptyTitleA 12 = .ok (postA_emptyTitle, [postA_emptyTitle]) from rfl] at h
  exact Except.noConfusion h

/-- C3 (amended): `update` validates before any storage statement, reporting
the first violated rule in the precedence id-positivity → non-empty title →
non-empty content → slug well-formedness, and a violating update returns a
`Validation` error and leaves the store unchanged. (`patch` does not
validate; see the counterexample.) -/
theorem update_validation_precedence (st : PostStore) (u : UpdatePost) (now : Int) :
    (u.id ≤ 0 → updateOp st u now = .error (.Validation "Post ID must be positive")) ∧
    (0 < u.id → rustTrim u.title = "" →
      updateOp st u now = .error (.Validation "Post title cannot be empty")) ∧
    (0 < u.id → rustTrim u.title ≠ "" → rustTrim u.content = "" →
      updateOp st u now = .error (.Validation "Post content cannot be empty")) ∧
    (0 < u.id → rustTrim u.title ≠ "" → rustTrim u.content ≠ "" → ¬ SlugSpec u.slug →
      updateOp st u now = .error (.Validation "Invalid slug format")) ∧
    ((u.id ≤ 0 ∨ rustTrim u.title = "" ∨ rustTrim u.content = "" ∨ ¬ SlugSpec u.slug) →
      storeAfter st (updateOp st u now) = st) := by
  have hle : ∀ (e : PostError), u.validate = .error e →
      updateOp st u now = .error (.Validation e.message) := by
    intro e hv
    simp [updateOp, hv]
  have hunch : ∀ (e : PostError), u.validate = .error e →
      storeAfter st (updateOp st u now) = st := by
    intro e hv
    simp [storeAfter, updateOp, hv]
  have hids : ∀ h : u.id ≤ 0, u.validate = .error .InvalidId := by
    intro h
    unfold UpdatePost.validate
    rw [if_pos h]
  have htitles : ∀ (_ : ¬ u.id ≤ 0) (_ : rustTrim u.title = ""),
      u.validate = .error .EmptyTitle := by
    intro h1 h2
    unfold UpdatePost.validate
    rw [if_neg h1, if_pos ((String.isEmpty_iff _).mpr h2)]
  have hcontents : ∀ (_ : ¬ u.id ≤ 0) (_ : rustTrim u.title ≠ "") (_ : rustTrim u.content = ""),
      u.validate = .error .EmptyContent := by
    intro h1 h2 h3
    unfold UpdatePost.validate
    rw [if_neg h1, if_neg (fun hh => h2 ((String.isEmpty_iff _).mp hh)),
      if_pos ((String.isEmpty_iff _).mpr h3)]
  have hslugs : ∀ (_ : ¬ u.id ≤ 0) (_ : rustTrim u.title ≠ "") (_ : rustTrim u.content ≠ "")
      (_ : ¬ SlugSpec u.slug), u.validate = .error .InvalidSlug := by
    intro h1 h2 h3 h4
    have hfalse : isValidSlug u.slug = false :=
      Bool.not_eq_true _ |>.mp (fun hh => h4 ((isValidSlug_iff _).mp hh))
    unfold UpdatePost.validate
    rw [if_neg h1, if_neg (fun hh => h2 ((String.isEmpty_iff _).mp hh)),
      if_neg (fun hh => h3 ((String.isEmpty_iff _).mp hh)), if_pos (by simp [hfalse])]
  refine ⟨fun h => hle _ (hids h),
          fun h1 h2 => hle _ (htitles (by omega) h2),
          fun h1 h2 h3 => hle _ (hcontents (by omega) h2 h3),
          fun h1 h2 h3 h4 => hle _ (hslugs (by omega) h2 h3 h4),
          ?_⟩
  intro h
  by_cases h1 : u.id ≤ 0
  · exact hunch _ (hids h1)
  by_cases h2 : rustTrim u.title = ""
  · exact hunch _ (htitles h1 h2)
  by_cases h3 : rustTrim u.content = ""
  · exact hunch _ (hcontents h1 h2 h3)
  have h4 : ¬ SlugSpec u.slug := by
    rcases h with h | h | h | h
    · exact absurd h h1
    · exact absurd h h2
    · exact absurd h h3
    · exact h
  exact hunch _ (hslugs h1 h2 h3 h4)

/-- Witness for the amended C3: an update with a positive id and an empty
title fails with the title message and leaves the store unchanged. -/
theorem update_validation_precedence_witness :
    updateOp [postA] updEmptyTitle 5 = .error (.Validation "Post title cannot be empty") ∧
    storeAfter [postA] (updateOp [postA] updEmptyTitle 5) = [postA] := by
  obtain ⟨-, ht, -, -, hu⟩ := update_validation_precedence [postA] updEmptyTitle 5
  exact ⟨ht (by decide) (by decide), hu (Or.inr (Or.inl (by decide)))⟩

/-- C4 counterexample: the repository's create path checks only emptiness
after trimming. The name "tagX!" violates `Tag::is_valid_name` (illegal
character), yet `create` inserts it as-is instead of rejecting it. -/
theorem tag_create_skips_name_invariant :
    Tag.isValidName "tagX!" = false ∧
    createTag emptyTagStore "tagX!" 3 =
      .ok ({ id := 1, name := "tagX!", created_at := 3 },
           { tags := [{ id := 1, name := "tagX!", created_at := 3 }],
             postIds := [], assocs := [], nextTagId := 2 }) :=
  ⟨by decide, rfl⟩

/-- C4 (amended): tag create/rename stores the trimmed form of the input and
rejects an input that is empty after trimming with a `Validation` error
before any insert or update; the remaining parts of the name invariant
(length bound, character set — `Tag::is_valid_name`) are not enforced by the
repository. -/
theorem tag_mutations_trim_and_check_empty (st : TagStore) (name : String) (id now : Int) :
    (rustTrim name = "" →
      createTag st name now = .error (.Validation "Tag name cannot be empty") ∧
      updateTag st id name = .error (.Validation "Tag name cannot be empty")) ∧
    (∀ tag st', createTag st name now = .ok (tag, st') →
      tag.name = rustTrim name ∧ tag ∈ st'.tags) ∧
    (∀ tag st', updateTag st id name = .ok (tag, st') →
      tag.name = rustTrim name ∧ tag ∈ st'.tags) := by
  refine ⟨?_, ?_, ?_⟩
  · intro h
    have he : (rustTrim name).isEmpty = true := (String.isEmpty_iff _).mpr h
    constructor
    · unfold createTag
      rw [if_pos he]
    · unfold updateTag
      rw [if_pos he]
  · intro tag st' hok
    unfold createTag at hok
    split at hok
    · exact Except.noConfusion hok
    · dsimp only at hok
      split at hok
      · exact Except.noConfusion hok
      · injection hok with h
        injection h with h1 h2
        subst h1
        subst h2
        exact ⟨rfl, by simp⟩
  · intro tag st' hok
    unfold updateTag at hok
    split at hok
    · exact Except.noConfusion hok
    · dsimp only at hok
      rcases hfind : st.tags.find? (fun t => t.id == id) with - | t
      · rw [hfind] at hok
        exact Except.noConfusion hok
      · rw [hfind] at hok
        dsimp only at hok
        split at hok
        · exact Except.noConfusion hok
        · injection hok with h
          injection h with h1 h2
          subst h1
          subst h2
          refine ⟨rfl, ?_⟩
          have hmem : t ∈ st.tags := List.mem_of_find?_eq_some hfind
          have hprop := List.find?_some hfind
          simp only at hprop
          have := List.mem_map_of_mem
            (fun u => if u.id == id then { t with name := rustTrim name } else u) hmem
          simpa [hprop] using this

/-- Witness for the amended C4: creating "  python  " stores the trimmed
name "python"; a whitespace-only name is rejected with `Validation`. -/
theorem tag_mutations_trim_witness :
    createTag emptyTagStore "  python  " 4 =
      .ok (⟨1, "python", 4⟩, ⟨[⟨1, "python", 4⟩], [], [], 2⟩) ∧
    (⟨1, "python", 4⟩ : Tag).name = rustTrim "  python  " ∧
    (⟨1, "python", 4⟩ : Tag) ∈ (⟨[⟨1, "python", 4⟩], [], [], 2⟩ : TagStore).tags ∧
    createTag emptyTagStore " " 4 = .error (.Validation "Tag name cannot be empty") := by
  obtain ⟨hname, hmem⟩ :=
    (tag_mutations_trim_and_check_empty emptyTagStore "  python  " 0 4).2.1
      ⟨1, "python", 4⟩ ⟨[⟨1, "python", 4⟩], [], [], 2⟩ rfl
  exact ⟨rfl, hname, hmem,
    ((tag_mutations_trim_and_check_empty emptyTagStore " " 0 4).1 (by decide)).1⟩

lemma toStr_inj {a b : PostCategory} : a.toStr = b.toStr ↔ a = b := by
  cases a <;> cases b <;> simp [PostCategory.toStr]

lemma postMatches_iff (category : Option PostCategory) (publishedOnly : Bool) (p : Post) :
    postMatches category publishedOnly p = true ↔
      ((∀ c, category = some c → p.category = c) ∧
        (publishedOnly = true → p.published = true)) := by
  cases category with
  | none => cases publishedOnly <;> simp [postMatches]
  | some c => cases publishedOnly <;> simp [postMatches, toStr_inj]

lemma pairwise_sortByCreatedDesc (rows : List Post) :
    (sortByCreatedDesc rows).Pairwise (fun a b => b.created_at ≤ a.created_at) := by
  have h := pairwise_sortList (fun p q : Post => decide (q.created_at ≤ p.created_at))
    (fun x y => by
      rcases le_total y.created_at x.created_at with h | h
      · exact Or.inl (decide_eq_true h)
      · exact Or.inr (decide_eq_true h))
    (fun x y z hxy hyz =>
      decide_eq_true (le_trans (of_decide_eq_true hyz) (of_decide_eq_true hxy)))
    rows
  exact h.imp (fun hd => of_decide_eq_true hd)

/-- C5: `list` rejects a limit outside [1,100] and a negative offset with
the corresponding `Validation` error; a successful result has at most
`limit` rows, is ordered by `created_at` descending, and every returned row
is a stored row matching the category filter (when given) and published
when `publishedOnly` is set; the filter keeps exactly the matching rows. -/
theorem list_pagination_and_filters (st : PostStore) (category : Option PostCategory)
    (publishedOnly : Bool) (limit offset : Int) :
    ((limit ≤ 0 ∨ 100 < limit) →
      listPosts st category publishedOnly limit offset =
        .error (.Validation "Limit must be between 1 and 100")) ∧
    (0 < limit → limit ≤ 100 → offset < 0 →
      listPosts st category publishedOnly limit offset =
        .error (.Validation "Offset cannot be negative")) ∧
    (∀ res, listPosts st category publishedOnly limit offset = .ok res →
      (res.length : Int) ≤ limit ∧
      res.Pairwise (fun a b => b.created_at ≤ a.created_at) ∧
      ∀ p ∈ res, p ∈ st ∧ (∀ c, category = some c → p.category = c) ∧
        (publishedOnly = true → p.published = true)) ∧
    (∀ p, p ∈ st.filter (postMatches category publishedOnly) ↔
      (p ∈ st ∧ (∀ c, category = some c → p.category = c) ∧
        (publishedOnly = true → p.published = true))) := by
  refine ⟨?_, ?_, ?_, ?_⟩
  · intro h
    unfold listPosts
    rw [if_pos (by rcases h with h | h <;> simp [h])]
  · intro h1 h2 h3
    unfold listPosts
    rw [if_neg (by simp only [Bool.or_eq_true, decide_eq_true_eq, not_or]; omega),
      if_pos h3]
  · intro res hok
    unfold listPosts at hok
    split at hok
    · exact Except.noConfusion hok
    · split at hok
      · exact Except.noConfusion hok
      · rename_i hlim hoff
        injection hok with hres
        subst hres
        simp only [Bool.or_eq_true, decide_eq_true_eq, not_or] at hlim
        have hsub : List.Sublist
            (((sortByCreatedDesc (st.filter (postMatches category publishedOnly))).drop
              offset.toNat).take limit.toNat)
            (sortByCreatedDesc (st.filter (postMatches category publishedOnly))) :=
          (List.take_sublist _ _).trans (List.drop_sublist _ _)
        refine ⟨?_, ?_, ?_⟩
        · have hlen : (((sortByCreatedDesc (st.filter (postMatches category publishedOnly))).drop
              offset.toNat).take limit.toNat).length ≤ limit.toNat := by
            rw [List.length_take]
            exact min_le_left _ _
          omega
        · exact (pairwise_sortByCreatedDesc _).sublist hsub
        · intro p hp
          have hmem : p ∈ st.filter (postMatches category publishedOnly) :=
            (sortList_perm _ _).mem_iff.mp (hsub.subset hp)
          rcases List.mem_filter.mp hmem with ⟨hin, hmatch⟩
          exact ⟨hin, (postMatches_iff category publishedOnly p).mp hmatch⟩
  · intro p
    rw [List.mem_filter, postMatches_iff]

/-- Witness for C5: limit 0 and limit 101 are rejected, a negative offset is
rejected, and a valid call returns at most the limit. -/
theorem list_pagination_witness :
    listPosts [postA] none false 0 0 = .error (.Validation "Limit must be between 1 and 100") ∧
    listPosts [postA] none false 101 0 = .error (.Validation "Limit must be between 1 and 100") ∧
    listPosts [postA] none false 10 (-1) = .error (.Validation "Offset cannot be negative") ∧
    listPosts [postA] none true 100 0 = .ok [postA] ∧
    (([postA] : List Post).length : Int) ≤ 100 := by
  refine ⟨(list_pagination_and_filters [postA] none false 0 0).1 (Or.inl (by decide)),
          (list_pagination_and_filters [postA] none false 101 0).1 (Or.inr (by decide)),
          (list_pagination_and_filters [postA] none false 10 (-1)).2.1
            (by decide) (by decide) (by decide),
          rfl,
          ((list_pagination_and_filters [postA] none true 100 0).2.2.1 [postA] rfl).1⟩

/-- C6: `add_tag_to_post` fails with `NotFound` when either id references no
row, fails with `DuplicateEntry` when the association already exists, and on
every failure the association rows are unchanged. -/
theorem add_tag_fk_and_uniqueness (st : TagStore) (postId tagId : Int) :
    (¬ (postId ∈ st.postIds ∧ ∃ t ∈ st.tags, t.id = tagId) →
      addTagToPost st postId tagId =
        .error (.NotFound "Post or Tag" (toString postId ++ ", " ++ toString tagId))) ∧
    (postId ∈ st.postIds → (∃ t ∈ st.tags, t.id = tagId) → (postId, tagId) ∈ st.assocs →
      addTagToPost st postId tagId =
        .error (.DuplicateEntry "Tag association" (toString postId ++ ", " ++ toString tagId))) ∧
    (∀ e, addTagToPost st postId tagId = .error e →
      (tagStoreAfter st (addTagToPost st postId tagId)).assocs = st.assocs) := by
  have hmem : (st.postIds.contains postId && st.tags.any fun t => t.id == tagId) = true ↔
      (postId ∈ st.postIds ∧ ∃ t ∈ st.tags, t.id = tagId) := by
    simp [List.any_eq_true]
  refine ⟨?_, ?_, ?_⟩
  · intro h
    have hb : (st.postIds.contains postId && st.tags.any fun t => t.id == tagId) = false := by
      rcases Bool.eq_false_or_eq_true
        (st.postIds.contains postId && st.tags.any fun t => t.id == tagId) with hb | hb
      · exact absurd (hmem.mp hb) h
      · exact hb
    unfold addTagToPost
    rw [if_pos (by rw [hb]; rfl)]
  · intro h1 h2 h3
    have hb := hmem.mpr ⟨h1, h2⟩
    have hcont : st.assocs.contains (postId, tagId) = true := by
      simpa using h3
    unfold addTagToPost
    rw [if_neg (by rw [hb]; decide), if_pos hcont]
  · intro e he
    simp [tagStoreAfter, he]

/-- Witness for C6: in `tagStoreT`, adding the nonexistent tag 999 to post 7
fails with `NotFound` and leaves the associations unchanged; re-adding the
existing association (7, 1) fails with `DuplicateEntry`. -/
theorem add_tag_witness :
    addTagToPost tagStoreT 7 999 =
      .error (.NotFound "Post or Tag" (toString (7 : Int) ++ ", " ++ toString (999 : Int))) ∧
    addTagToPost tagStoreT 7 1 =
      .error (.DuplicateEntry "Tag association" (toString (7 : Int) ++ ", " ++ toString (1 : Int))) ∧
    (tagStoreAfter tagStoreT (addTagToPost tagStoreT 7 999)).assocs = tagStoreT.assocs := by
  obtain ⟨hnf, -, hunch⟩ := add_tag_fk_and_uniqueness tagStoreT 7 999
  obtain ⟨-, hdup, -⟩ := add_tag_fk_and_uniqueness tagStoreT 7 1
  have h1 := hnf (by decide)
  exact ⟨h1, hdup (by decide) (by decide) (by decide), hunch _ h1⟩

lemma charListLe_iff (l₁ l₂ : List Char) :
    charListLe l₁ l₂ = true ↔ ¬ List.Lex (· < ·) l₂ l₁ := by
  induction l₁ generalizing l₂ with
  | nil =>
    cases l₂ with
    | nil => simp [charListLe]
    | cons d ds => simp [charListLe]
  | cons c cs ih =>
    cases l₂ with
    | nil =>
      simp only [charListLe, Bool.false_eq_true, false_iff, not_not]
      exact List.Lex.nil
    | cons d ds =>
      rcases lt_trichotomy c d with hlt | heq | hgt
      · simp only [charListLe, if_pos hlt, true_iff]
        intro h
        cases h with
        | cons h2 => exact absurd rfl (ne_of_lt hlt)
        | rel hr => exact absurd hr (not_lt_of_gt hlt)
      · subst heq
        simp only [charListLe, lt_irrefl, ite_false, if_neg (lt_irrefl c)]
        rw [ih ds]
        constructor
        · intro h hl
          cases hl with
          | cons h2 => exact h h2
          | rel hr => exact absurd hr (lt_irrefl c)
        · intro h hl
          exact h (List.Lex.cons hl)
      · simp only [charListLe, if_neg (not_lt_of_gt hgt), if_pos hgt, Bool.false_eq_true,
          false_iff, not_not]
        exact List.Lex.rel hgt

lemma nameLe_iff (s t : String) : nameLe s t = true ↔ s ≤ t := by
  rw [String.le_iff_toList_le, ← not_lt]
  exact charListLe_iff s.data t.data

lemma pairwise_sortTagsByName (ts : List Tag) :
    (sortTagsByName ts).Pairwise (fun a b => a.name ≤ b.name) := by
  have h := pairwise_sortList (fun t u : Tag => nameLe t.name u.name)
    (fun x y => by
      rcases le_total x.name y.name with h | h
      · exact Or.inl ((nameLe_iff _ _).mpr h)
      · exact Or.inr ((nameLe_iff _ _).mpr h))
    (fun x y z hxy hyz =>
      (nameLe_iff _ _).mpr (le_trans ((nameLe_iff _ _).mp hxy) ((nameLe_iff _ _).mp hyz)))
    ts
  exact h.imp (fun hd => (nameLe_iff _ _).mp hd)

/-- C7: `list_tags_for_post` always succeeds (never `NotFound`), returns the
tags that the association rows link to the post, ordered by name, and
returns the empty list both when the post has no associations and (in a
referentially consistent store) when the post does not exist. -/
theorem list_tags_for_post_total (st : TagStore) (postId : Int) :
    ∃ r, listTagsForPost st postId = .ok r ∧
      r.Pairwise (fun a b => a.name ≤ b.name) ∧
      (∀ t ∈ r, t ∈ st.tags ∧ ∃ a ∈ st.assocs, a.1 = postId ∧ t.id = a.2) ∧
      (TagStoreConsistent st → ∀ a ∈ st.assocs, a.1 = postId → ∃ t ∈ r, t.id = a.2) ∧
      ((∀ a ∈ st.assocs, a.1 ≠ postId) → r = []) ∧
      (TagStoreConsistent st → postId ∉ st.postIds → r = []) := by
  have hemp : (∀ a ∈ st.assocs, a.1 ≠ postId) →
      sortTagsByName ((st.assocs.filter (fun a => a.1 == postId)).filterMap
        (fun a => st.tags.find? (fun u => u.id == a.2))) = [] := by
    intro hnone
    have hfil : st.assocs.filter (fun a => a.1 == postId) = [] :=
      List.filter_eq_nil_iff.mpr (fun a ha => by
        simp only [beq_iff_eq]
        exact hnone a ha)
    rw [hfil]
    rfl
  refine ⟨_, rfl, pairwise_sortTagsByName _, ?_, ?_, hemp, ?_⟩
  · intro t ht
    have hmem : t ∈ (st.assocs.filter (fun a => a.1 == postId)).filterMap
        (fun a => st.tags.find? (fun u => u.id == a.2)) :=
      (sortList_perm _ _).mem_iff.mp ht
    rcases List.mem_filterMap.mp hmem with ⟨a, haf, hfind⟩
    rcases List.mem_filter.mp haf with ⟨hain, haeq⟩
    have hprop := List.find?_some hfind
    simp only [beq_iff_eq] at hprop haeq
    exact ⟨List.mem_of_find?_eq_some hfind, a, hain, haeq, hprop⟩
  · intro hcons a hain haeq
    obtain ⟨-, t, htin, hid⟩ := hcons a hain
    have hsome : (st.tags.find? (fun u => u.id == a.2)).isSome = true :=
      List.find?_isSome.mpr ⟨t, htin, by simp [hid]⟩
    obtain ⟨t2, hfind⟩ := Option.isSome_iff_exists.mp hsome
    have hprop := List.find?_some hfind
    simp only [beq_iff_eq] at hprop
    refine ⟨t2, ?_, hprop⟩
    apply (sortList_perm _ _).mem_iff.mpr
    exact List.mem_filterMap.mpr ⟨a, List.mem_filter.mpr ⟨hain, by simp [haeq]⟩, hfind⟩
  · intro hcons hnp
    exact hemp (fun a ha hae => hnp (hae ▸ (hcons a ha).1))

/-- Witness for C7: in `tagStoreT`, post 7 has one tag ("zig"); a request
for the nonexistent post 99 returns the empty list, not an error. -/
theorem list_tags_for_post_witness :
    listTagsForPost tagStoreT 7 = .ok [⟨1, "zig", 2⟩] ∧
    listTagsForPost tagStoreT 99 = .ok [] := by
  obtain ⟨r, hok, -, -, -, hemp, -⟩ := list_tags_for_post_total tagStoreT 99
  refine ⟨rfl, ?_⟩
  rw [hemp (by decide)] at hok
  exact hok

lemma postCountFor_spec (st : TagStore) (i : Int) :
    postCountFor st i = ((st.assocs.filter (fun a => decide (a.2 = i))).length : Int) := by
  have h : st.assocs.filter (fun a => a.2 == i) =
      st.assocs.filter (fun a => decide (a.2 = i)) :=
    List.filter_congr (fun a _ => by rw [Bool.eq_iff_iff]; simp)
  unfold postCountFor
  rw [h]

/-- C9: `list` with post counts returns one entry per tag, ordered by name
ascending, where each entry's count is the number of association rows
referencing that tag (0 for tags with no associations). -/
theorem list_tags_with_counts (st : TagStore) :
    ∃ r, listTags st true = .ok r ∧
      r.length = st.tags.length ∧
      r.Pairwise (fun a b => a.name ≤ b.name) ∧
      (∀ t ∈ st.tags, ∃ e ∈ r, e.id = t.id ∧ e.name = t.name ∧
        e.post_count = ((st.assocs.filter (fun a => decide (a.2 = t.id))).length : Int)) ∧
      (∀ e ∈ r, ∃ t ∈ st.tags, e.id = t.id ∧ e.name = t.name ∧
        e.post_count = ((st.assocs.filter (fun a => decide (a.2 = t.id))).length : Int)) := by
  refine ⟨_, rfl, ?_, ?_, ?_, ?_⟩
  · rw [List.length_map]
    exact (sortList_perm _ _).length_eq
  · exact List.pairwise_map.mpr (pairwise_sortTagsByName st.tags)
  · intro t ht
    refine ⟨_, List.mem_map_of_mem _ ((sortList_perm _ _).mem_iff.mpr ht),
      rfl, rfl, postCountFor_spec st t.id⟩
  · intro e he
    rcases List.mem_map.mp he with ⟨t, htmem, rfl⟩
    exact ⟨t, (sortList_perm _ _).mem_iff.mp htmem, rfl, rfl, postCountFor_spec st t.id⟩

/-- Witness for C9: in `tagStoreT`, "ada" (no associations) appears with
count 0 and "zig" (one association) with count 1, in name order. -/
theorem list_tags_with_counts_witness :
    listTags tagStoreT true = .ok [⟨2, "ada", 3, 0⟩, ⟨1, "zig", 2, 1⟩] ∧
    [(⟨2, "ada", 3, 0⟩ : TagWithPostCount), ⟨1, "zig", 2, 1⟩].length = tagStoreT.tags.length := by
  obtain ⟨r, hok, hlen, -, -, -⟩ := list_tags_with_counts tagStoreT
  have h2 : listTags tagStoreT true = .ok [⟨2, "ada", 3, 0⟩, ⟨1, "zig", 2, 1⟩] := rfl
  rw [hok] at h2
  injection h2 with hr
  rw [hr] at hok hlen
  exact ⟨hok, hlen⟩

/-- C10: `list` without post counts returns every tag with the literal count
0, whatever the association rows say. -/
theorem list_tags_without_counts (st : TagStore) :
    ∃ r, listTags st false = .ok r ∧
      r.length = st.tags.length ∧
      (∀ e ∈ r, e.post_count = 0) ∧
      (∀ t ∈ st.tags, ∃ e ∈ r, e.id = t.id ∧ e.name = t.name ∧ e.post_count = 0) := by
  refine ⟨_, rfl, ?_, ?_, ?_⟩
  · rw [List.length_map]
    exact (sortList_perm _ _).length_eq
  · intro e he
    rcases List.mem_map.mp he with ⟨t, -, rfl⟩
    rfl
  · intro t ht
    exact ⟨_, List.mem_map_of_mem _ ((sortList_perm _ _).mem_iff.mpr ht), rfl, rfl, rfl⟩

/-- Witness for C10: "zig" has one association row in `tagStoreT`, yet the
count-free listing reports 0 for it. -/
theorem list_tags_without_counts_witness :
    listTags tagStoreT false = .ok [⟨2, "ada", 3, 0⟩, ⟨1, "zig", 2, 0⟩] ∧
    postCountFor tagStoreT 1 = 1 := by
  obtain ⟨r, hok, -, hzero, -⟩ := list_tags_without_counts tagStoreT
  have h2 : listTags tagStoreT false = .ok [⟨2, "ada", 3, 0⟩, ⟨1, "zig", 2, 0⟩] := rfl
  rw [hok] at h2
  injection h2 with hr
  rw [hr] at hok
  exact ⟨hok, rfl⟩
